import Mathlib

/-!
# Order viewer script (`src/web/static/script.js`)

A shallow embedding of the script's four functions `getOrder`, `showLoading`,
`showError` and `displayOrder`, together with the built-ins they call
(`String.prototype.trim`, `encodeURIComponent`, template-literal string
conversion), followed by theorems about them.

JavaScript strings are sequences of UTF-16 code units, so they are modelled
as lists of numbers below `2^16`.  What the page assigns to the `innerHTML` of
the `orderResult` element is kept as that markup string.
-/

namespace OrderViewer

/-! ## Strings -/

/-- One UTF-16 code unit. -/
abbrev CodeUnit := Fin 65536

/-- A JavaScript string value: its sequence of UTF-16 code units. -/
abbrev JSString := List CodeUnit

/-- The code unit with the given number (reduced modulo `2^16`). -/
def unit (n : Nat) : CodeUnit := ⟨n % 65536, Nat.mod_lt n (by decide)⟩

/-- A string literal.  Every literal of the script is ASCII, and a character
of the basic plane is a single code unit, the number of its code point. -/
def lit (s : String) : JSString := s.toList.map (fun c => unit c.toNat)

/-- The decimal digits of a natural number, as the conversion of a
non-negative integer Number to a string gives for an array length or an
HTTP status code. -/
def decimal (n : Nat) : JSString := (Nat.toDigits 10 n).map (fun c => unit c.toNat)

/-- The code points that `trim` strips: ECMAScript `WhiteSpace` (TAB, VT, FF,
SP, NBSP, ZWNBSP and the space separators) and `LineTerminator` (LF, CR, LS,
PS).  All of them lie in the basic plane, so the test is per code unit. -/
def isWhiteSpace (c : CodeUnit) : Bool :=
  c.val == 0x09 || c.val == 0x0A || c.val == 0x0B || c.val == 0x0C || c.val == 0x0D ||
  c.val == 0x20 || c.val == 0xA0 || c.val == 0x1680 ||
  (0x2000 ≤ c.val && c.val ≤ 0x200A) ||
  c.val == 0x2028 || c.val == 0x2029 || c.val == 0x202F || c.val == 0x205F ||
  c.val == 0x3000 || c.val == 0xFEFF

/-- Leading white space removed. -/
def trimStart (s : JSString) : JSString := s.dropWhile isWhiteSpace

/-- Trailing white space removed. -/
def trimEnd (s : JSString) : JSString := (s.reverse.dropWhile isWhiteSpace).reverse

/-- The method `String.prototype.trim`: white space removed from both ends. -/
def trim (s : JSString) : JSString := trimEnd (trimStart s)

/-! ## `encodeURIComponent` -/

/-- An exception value; the script only ever reads its `message`. -/
structure JSError where
  message : JSString
  deriving DecidableEq, Repr

/-- The characters `encodeURIComponent` leaves as they are: ASCII letters,
decimal digits and the marks `- _ . ! ~ * ' ( )`. -/
def isUnreserved (c : CodeUnit) : Bool :=
  (0x41 ≤ c.val && c.val ≤ 0x5A) || (0x61 ≤ c.val && c.val ≤ 0x7A) ||
  (0x30 ≤ c.val && c.val ≤ 0x39) ||
  c.val == 0x2D || c.val == 0x5F || c.val == 0x2E || c.val == 0x21 || c.val == 0x7E ||
  c.val == 0x2A || c.val == 0x27 || c.val == 0x28 || c.val == 0x29

/-- A leading (high) surrogate, `D800`..`DBFF`. -/
def isLeadSurrogate (c : CodeUnit) : Bool := 0xD800 ≤ c.val && c.val ≤ 0xDBFF

/-- A trailing (low) surrogate, `DC00`..`DFFF`. -/
def isTrailSurrogate (c : CodeUnit) : Bool := 0xDC00 ≤ c.val && c.val ≤ 0xDFFF

/-- The code point of a surrogate pair. -/
def surrogatePairToCodePoint (lead trail : CodeUnit) : Nat :=
  (lead.val - 0xD800) * 0x400 + (trail.val - 0xDC00) + 0x10000

/-- The UTF-8 octets of a code point. -/
def utf8Encode (cp : Nat) : List Nat :=
  if cp < 0x80 then [cp]
  else if cp < 0x800 then [0xC0 + cp / 64, 0x80 + cp % 64]
  else if cp < 0x10000 then [0xE0 + cp / 4096, 0x80 + cp / 64 % 64, 0x80 + cp % 64]
  else [0xF0 + cp / 262144, 0x80 + cp / 4096 % 64, 0x80 + cp / 64 % 64, 0x80 + cp % 64]

/-- An upper-case hexadecimal digit. -/
def hexDigit (n : Nat) : CodeUnit := if n < 10 then unit (0x30 + n) else unit (0x41 + (n - 10))

/-- The escape `%XY` of one octet. -/
def escapeOctet (b : Nat) : JSString := [unit 0x25, hexDigit (b / 16), hexDigit (b % 16)]

/-- The escapes of a code point: its UTF-8 octets, each as `%XY`. -/
def escapeCodePoint (cp : Nat) : JSString := (utf8Encode cp).flatMap escapeOctet

/-- The built-in `encodeURIComponent` (ECMAScript `Encode`): unreserved code
units are copied, every other code point is replaced by the escapes of its
UTF-8 octets, and an unpaired surrogate makes the call throw a `URIError`,
whose message `uriError` is the engine's. -/
def encodeURIComponent (uriError : JSString) : JSString → Except JSError JSString
  | [] => .ok []
  | c :: rest =>
    if isUnreserved c then
      match encodeURIComponent uriError rest with
      | .ok r => .ok (c :: r)
      | .error e => .error e
    else if isLeadSurrogate c then
      match rest with
      | [] => .error ⟨uriError⟩
      | d :: rest2 =>
        if isTrailSurrogate d then
          match encodeURIComponent uriError rest2 with
          | .ok r => .ok (escapeCodePoint (surrogatePairToCodePoint c d) ++ r)
          | .error e => .error e
        else .error ⟨uriError⟩
    else if isTrailSurrogate c then .error ⟨uriError⟩
    else
      match encodeURIComponent uriError rest with
      | .ok r => .ok (escapeCodePoint c.val ++ r)
      | .error e => .error e

/-! ## Values and the host -/

/-- A value as a template literal of the script meets it.  `undefined` is what
reading a missing property gives.  An object or array is kept as the string
its conversion to a string yields, which is all a template literal reads
(an object whose conversion itself throws is not represented). -/
inductive JSValue (Num : Type)
  | undefined
  | null
  | bool (b : Bool)
  | number (n : Num)
  | string (s : JSString)
  | object (text : JSString)
  deriving DecidableEq, Repr

/-- What the script takes from the engine it runs on and does not fix itself:
the type of Number values and their conversion to a string, the locale and
timezone dependent `new Date(v * 1000).toLocaleString()`, and the messages of
the errors the engine throws. -/
structure Host (Num : Type) where
  /-- The string conversion of a Number. -/
  numberToString : Num → JSString
  /-- The value of `new Date(v * 1000).toLocaleString()`. -/
  toLocaleString : JSValue Num → JSString
  /-- The message of the `TypeError` for reading the named property of
  `undefined` or `null`. -/
  cannotRead : JSString → JSString
  /-- The message of the `URIError` of `encodeURIComponent`. -/
  uriError : JSString

variable {Num : Type}

/-- The string a template literal substitutes for a value. -/
def toStr (H : Host Num) : JSValue Num → JSString
  | .undefined => lit "undefined"
  | .null => lit "null"
  | .bool true => lit "true"
  | .bool false => lit "false"
  | .number n => H.numberToString n
  | .string s => s
  | .object text => text

/-! ## The decoded response body -/

/-- The properties `displayOrder` reads from `order.delivery`. -/
structure DeliveryData (Num : Type) where
  name : JSValue Num
  phone : JSValue Num
  zip : JSValue Num
  city : JSValue Num
  address : JSValue Num
  region : JSValue Num
  email : JSValue Num

/-- The properties `displayOrder` reads from `order.payment`. -/
structure PaymentData (Num : Type) where
  transaction : JSValue Num
  currency : JSValue Num
  provider : JSValue Num
  amount : JSValue Num
  payment_dt : JSValue Num
  bank : JSValue Num
  delivery_cost : JSValue Num
  goods_total : JSValue Num

/-- The properties `displayOrder` reads from one element of `order.items`. -/
structure ItemData (Num : Type) where
  name : JSValue Num
  brand : JSValue Num
  price : JSValue Num
  total_price : JSValue Num
  sale : JSValue Num
  size : JSValue Num
  status : JSValue Num

/-- The argument of `displayOrder`, as far as the function reads it.  No
property is checked for presence by the script: a missing scalar property is
`undefined`, and `none` stands for a nested object (or an element of `items`)
that is `undefined` or `null`. -/
structure OrderData (Num : Type) where
  order_uid : JSValue Num
  track_number : JSValue Num
  entry : JSValue Num
  customer_id : JSValue Num
  delivery_service : JSValue Num
  date_created : JSValue Num
  delivery : Option (DeliveryData Num)
  payment : Option (PaymentData Num)
  items : Option (List (Option (ItemData Num)))

/-! ## The page -/

/-- What the script does to the outside, in the order it does it. -/
inductive Effect
  | setInnerHTML (html : JSString)
  | fetch (url : JSString)
  deriving DecidableEq, Repr

/-- The page the script runs in: the value of the input `orderUid`, the
`innerHTML` of the display region `orderResult`, and the effects so far,
oldest first. -/
structure World where
  orderUid : JSString
  orderResult : JSString
  log : List Effect
  deriving DecidableEq, Repr

/-- The markup `showLoading` writes. -/
def loadingHTML : JSString := lit "\n        <div class=\"loading\">Loading...</div>\n    "

/-- The markup `showError` writes for a message. -/
def errorHTML (message : JSString) : JSString :=
  List.flatten [lit "\n        <div class=\"error\">", message, lit "</div>\n    "]

/-- The assignment `document.getElementById('orderResult').innerHTML = html`. -/
def setInnerHTML (html : JSString) (w : World) : World :=
  { w with orderResult := html, log := w.log ++ [Effect.setInnerHTML html] }

/-- The function `showLoading`. -/
def showLoading (w : World) : World := setInnerHTML loadingHTML w

/-- The function `showError`. -/
def showError (message : JSString) (w : World) : World := setInnerHTML (errorHTML message) w

/-- The call `fetch(url)`: the request goes out; its outcome arrives later. -/
def fetch (url : JSString) (w : World) : World :=
  { w with log := w.log ++ [Effect.fetch url] }

/-- The URLs of the requests among some effects, in order. -/
def requests : List Effect → List JSString
  | [] => []
  | Effect.fetch url :: rest => url :: requests rest
  | Effect.setInnerHTML _ :: rest => requests rest

/-! ## `displayOrder` -/

/-- Reading property `name` of a nested object: a `TypeError` when the object
is `undefined` or `null`. -/
def readFrom (H : Host Num) {α : Type} (base : Option α) (name : String) : Except JSError α :=
  match base with
  | some o => .ok o
  | none => .error ⟨H.cannotRead (lit name)⟩

/-- The pieces of the template literal of the arrow function given to
`order.items.map`: its text chunks and, between them, its substitutions. -/
def itemParts (H : Host Num) (item : ItemData Num) : List JSString :=
  [
    lit "\n                    <div class=\"item\">\n                        <p><strong>Name:</strong> ",
    toStr H item.name,
    lit "</p>\n                        <p><strong>Brand:</strong> ",
    toStr H item.brand,
    lit "</p>\n                        <p><strong>Price:</strong> ",
    toStr H item.price,
    lit "</p>\n                        <p><strong>Total Price:</strong> ",
    toStr H item.total_price,
    lit "</p>\n                        <p><strong>Sale:</strong> ",
    toStr H item.sale,
    lit "%</p>\n                        <p><strong>Size:</strong> ",
    toStr H item.size,
    lit "</p>\n                        <p><strong>Status:</strong> ",
    toStr H item.status,
    lit "</p>\n                    </div>\n                "]

/-- The value of the arrow function given to `order.items.map`: the pieces of
its template literal, concatenated. -/
def itemHTML (H : Host Num) (item : ItemData Num) : JSString :=
  List.flatten (itemParts H item)

/-- The call `order.items.map(item => ...)`: the arrow function applied to the
elements in order; the first element that is `undefined` or `null` makes the
read of `item.name` throw. -/
def mapItems (H : Host Num) : List (Option (ItemData Num)) → Except JSError (List JSString)
  | [] => .ok []
  | item :: rest =>
    match readFrom H item "name" with
    | .error e => .error e
    | .ok it =>
      match mapItems H rest with
      | .error e => .error e
      | .ok blocks => .ok (itemHTML H it :: blocks)

/-- The pieces of the template literal bound to `orderHTML` in `displayOrder`:
its text chunks and, between them, its substitutions, where `count` is
`order.items.length` and `joined` is `order.items.map(...).join('')`. -/
def orderParts (H : Host Num) (order : OrderData Num) (delivery : DeliveryData Num)
    (payment : PaymentData Num) (count : Nat) (joined : JSString) : List JSString :=
  [
    lit "\n        <div class=\"order-info\">\n            <h2>Order Information</h2>\n            <div class=\"order-details\">\n                <p><strong>Order UID:</strong> ",
    toStr H order.order_uid,
    lit "</p>\n                <p><strong>Track Number:</strong> ",
    toStr H order.track_number,
    lit "</p>\n                <p><strong>Entry:</strong> ",
    toStr H order.entry,
    lit "</p>\n                <p><strong>Customer ID:</strong> ",
    toStr H order.customer_id,
    lit "</p>\n                <p><strong>Delivery Service:</strong> ",
    toStr H order.delivery_service,
    lit "</p>\n                <p><strong>Date Created:</strong> ",
    toStr H order.date_created,
    lit "</p>\n            </div>\n            \n            <div class=\"section\">\n                <div class=\"section-title\">Delivery Information</div>\n                <p><strong>Name:</strong> ",
    toStr H delivery.name,
    lit "</p>\n                <p><strong>Phone:</strong> ",
    toStr H delivery.phone,
    lit "</p>\n                <p><strong>Zip:</strong> ",
    toStr H delivery.zip,
    lit "</p>\n                <p><strong>City:</strong> ",
    toStr H delivery.city,
    lit "</p>\n                <p><strong>Address:</strong> ",
    toStr H delivery.address,
    lit "</p>\n                <p><strong>Region:</strong> ",
    toStr H delivery.region,
    lit "</p>\n                <p><strong>Email:</strong> ",
    toStr H delivery.email,
    lit "</p>\n            </div>\n            \n            <div class=\"section\">\n                <div class=\"section-title\">Payment Information</div>\n                <p><strong>Transaction:</strong> ",
    toStr H payment.transaction,
    lit "</p>\n                <p><strong>Currency:</strong> ",
    toStr H payment.currency,
    lit "</p>\n                <p><strong>Provider:</strong> ",
    toStr H payment.provider,
    lit "</p>\n                <p><strong>Amount:</strong> ",
    toStr H payment.amount,
    lit "</p>\n                <p><strong>Payment Date:</strong> ",
    H.toLocaleString payment.payment_dt,
    lit "</p>\n                <p><strong>Bank:</strong> ",
    toStr H payment.bank,
    lit "</p>\n                <p><strong>Delivery Cost:</strong> ",
    toStr H payment.delivery_cost,
    lit "</p>\n                <p><strong>Goods Total:</strong> ",
    toStr H payment.goods_total,
    lit "</p>\n            </div>\n            \n            <div class=\"section\">\n                <div class=\"section-title\">Items (",
    decimal count,
    lit ")</div>\n                ",
    joined,
    lit "\n            </div>\n        </div>\n    "]

/-- The template literal bound to `orderHTML` in `displayOrder`.  The
substitutions are evaluated from first to last, so the first read through a
missing nested object throws before anything is produced. -/
def orderHTML (H : Host Num) (order : OrderData Num) : Except JSError JSString :=
  match readFrom H order.delivery "name" with
  | .error e => .error e
  | .ok delivery =>
  match readFrom H order.payment "transaction" with
  | .error e => .error e
  | .ok payment =>
  match readFrom H order.items "length" with
  | .error e => .error e
  | .ok items =>
  match mapItems H items with
  | .error e => .error e
  | .ok blocks =>
  .ok (List.flatten (orderParts H order delivery payment items.length (List.flatten blocks)))

/-- The function `displayOrder`: the markup is built, then assigned to the
display region; when building it throws, nothing is assigned. -/
def displayOrder (H : Host Num) (order : OrderData Num) (w : World) : Except JSError World :=
  match orderHTML H order with
  | .error e => .error e
  | .ok html => .ok (setInnerHTML html w)

/-! ## `getOrder` -/

/-- How a call ends: the page it leaves, and the exception that escaped it,
if one did. -/
structure Completion where
  world : World
  thrown : Option JSError
  deriving DecidableEq, Repr

/-- The function `getOrder`, up to the point where it returns: the input is
trimmed; an empty result shows the validation error and returns; otherwise
the loading indicator is shown, the URL is built and the request is issued.
A `URIError` of `encodeURIComponent` is raised before `fetch` is called and
outside the promise chain, so it escapes the call. -/
def getOrder (H : Host Num) (w : World) : Completion :=
  let orderUid := trim w.orderUid
  if orderUid = [] then
    ⟨showError (lit "Please enter Order UID") w, none⟩
  else
    let w1 := showLoading w
    match encodeURIComponent H.uriError orderUid with
    | .error e => ⟨w1, some e⟩
    | .ok encoded => ⟨fetch (lit "http://localhost:8080/order?uid=" ++ encoded) w1, none⟩

/-- How the request of `getOrder` ends: the promise of `fetch` rejects with an
error (a transport failure), or it resolves with a response, of which the
script reads `status` (`ok` is derived from it) and, through
`response.json()`, the body: a decoded value, or the error of the decoding. -/
inductive FetchOutcome (Num : Type)
  | rejected (error : JSError)
  | response (status : Nat) (json : Except JSError (OrderData Num))

/-- The property `response.ok`: the status is in the range 200 to 299. -/
def responseOk (status : Nat) : Bool := 200 ≤ status && status ≤ 299

/-- The first `then` callback, together with the promise it returns. -/
def onResponse (status : Nat) (json : Except JSError (OrderData Num)) :
    Except JSError (OrderData Num) :=
  if !responseOk status then
    if status = 404 then .error ⟨lit "Order not found"⟩
    else if status = 400 then .error ⟨lit "Invalid Order UID"⟩
    else .error ⟨lit "Server error: " ++ decimal status⟩
  else json

/-- The `catch` callback. -/
def onError (error : JSError) (w : World) : World :=
  showError (lit "Error: " ++ error.message) w

/-- The promise chain of `getOrder`, run when the request has ended. -/
def settle (H : Host Num) (outcome : FetchOutcome Num) (w : World) : World :=
  match outcome with
  | .rejected error => onError error w
  | .response status json =>
    match onResponse status json with
    | .error e => onError e w
    | .ok data =>
      match displayOrder H data w with
      | .error e => onError e w
      | .ok w2 => w2

/-! ## Percent-decoding -/

/-- Modelled from the spec: the value of a hexadecimal digit, of either case.
Percent-decoding is done by the receiver of the request; the script has no
decoder. -/
def hexValue (c : CodeUnit) : Option Nat :=
  if 0x30 ≤ c.val ∧ c.val ≤ 0x39 then some (c.val - 0x30)
  else if 0x41 ≤ c.val ∧ c.val ≤ 0x46 then some (c.val - 0x41 + 10)
  else if 0x61 ≤ c.val ∧ c.val ≤ 0x66 then some (c.val - 0x61 + 10)
  else none

/-- Modelled from the spec: the octets a percent-encoded parameter stands for.
`%XY` is the octet with hexadecimal digits `X` and `Y`, any other ASCII
character is its own octet; a `%` without two digits after it, or a character
outside ASCII, is malformed. -/
def unescapeOctets : JSString → Option (List Nat)
  | [] => some []
  | c :: rest =>
    if c.val = 0x25 then
      match rest with
      | a :: b :: rest2 =>
        match hexValue a, hexValue b, unescapeOctets rest2 with
        | some x, some y, some r => some ((16 * x + y) :: r)
        | _, _, _ => none
      | _ => none
    else if c.val < 0x80 then
      match unescapeOctets rest with
      | some r => some (c.val :: r)
      | none => none
    else none

/-- A UTF-8 continuation octet, `80`..`BF`. -/
def isContinuation (b : Nat) : Bool := 0x80 ≤ b && b < 0xC0

/-- Modelled from the spec: the first code point of a UTF-8 octet sequence and
the octets after it, with the checks of a strict decoder: continuation octets
where they belong, no overlong form, no surrogate, nothing above `10FFFF`. -/
def utf8DecodeOne : List Nat → Option (Nat × List Nat)
  | [] => none
  | b0 :: rest =>
    if b0 < 0x80 then some (b0, rest)
    else if b0 < 0xC0 then none
    else if b0 < 0xE0 then
      match rest with
      | b1 :: r1 =>
        if isContinuation b1 && 0x80 ≤ (b0 - 0xC0) * 64 + (b1 - 0x80) then
          some ((b0 - 0xC0) * 64 + (b1 - 0x80), r1)
        else none
      | _ => none
    else if b0 < 0xF0 then
      match rest with
      | b1 :: b2 :: r1 =>
        if isContinuation b1 && isContinuation b2 &&
            0x800 ≤ (b0 - 0xE0) * 4096 + (b1 - 0x80) * 64 + (b2 - 0x80) &&
            !(0xD800 ≤ (b0 - 0xE0) * 4096 + (b1 - 0x80) * 64 + (b2 - 0x80) &&
              (b0 - 0xE0) * 4096 + (b1 - 0x80) * 64 + (b2 - 0x80) ≤ 0xDFFF) then
          some ((b0 - 0xE0) * 4096 + (b1 - 0x80) * 64 + (b2 - 0x80), r1)
        else none
      | _ => none
    else if b0 < 0xF8 then
      match rest with
      | b1 :: b2 :: b3 :: r1 =>
        if isContinuation b1 && isContinuation b2 && isContinuation b3 &&
            0x10000 ≤ (b0 - 0xF0) * 262144 + (b1 - 0x80) * 4096 + (b2 - 0x80) * 64 + (b3 - 0x80) &&
            (b0 - 0xF0) * 262144 + (b1 - 0x80) * 4096 + (b2 - 0x80) * 64 + (b3 - 0x80) ≤ 0x10FFFF then
          some ((b0 - 0xF0) * 262144 + (b1 - 0x80) * 4096 + (b2 - 0x80) * 64 + (b3 - 0x80), r1)
        else none
      | _ => none
    else none

/-- Modelled from the spec: the code points of a UTF-8 octet sequence, read
one after the other.  `fuel` bounds the number of code points read. -/
def utf8DecodeFuel : Nat → List Nat → Option (List Nat)
  | _, [] => some []
  | 0, _ :: _ => none
  | fuel + 1, b :: rest =>
    match utf8DecodeOne (b :: rest) with
    | none => none
    | some (cp, r) =>
      match utf8DecodeFuel fuel r with
      | some cps => some (cp :: cps)
      | none => none

/-- Modelled from the spec: the code points of a UTF-8 octet sequence.  Every
code point takes at least one octet, so the number of octets is fuel enough. -/
def utf8Decode (octets : List Nat) : Option (List Nat) :=
  utf8DecodeFuel octets.length octets

/-- The UTF-16 code units of a code point. -/
def utf16Encode (cp : Nat) : JSString :=
  if cp < 0x10000 then [unit cp]
  else [unit (0xD800 + (cp - 0x10000) / 0x400), unit (0xDC00 + (cp - 0x10000) % 0x400)]

/-- Modelled from the spec: percent-decoding of a query parameter to text:
the escapes are resolved to octets, the octets are read as UTF-8, and the
code points are given as a string. -/
def percentDecode (s : JSString) : Option JSString :=
  match unescapeOctets s with
  | none => none
  | some octets =>
    match utf8Decode octets with
    | none => none
    | some cps => some (cps.flatMap utf16Encode)

/-- The test `String.prototype.isWellFormed`: every surrogate is part of a
pair, a leading one directly followed by a trailing one. -/
def isWellFormed : JSString → Bool
  | [] => true
  | c :: rest =>
    if isLeadSurrogate c then
      match rest with
      | [] => false
      | d :: rest2 => isTrailSurrogate d && isWellFormed rest2
    else if isTrailSurrogate c then false
    else isWellFormed rest

/-- A code point that is a Unicode scalar value: at most `10FFFF` and not a
surrogate. -/
def IsScalar (cp : Nat) : Prop := cp < 0x110000 ∧ ¬ (0xD800 ≤ cp ∧ cp ≤ 0xDFFF)

/-- The escaped text `e` stands for the string `s`: its octets are the UTF-8
form of a sequence of scalar values whose UTF-16 form is `s`. -/
def Decodes (e s : JSString) : Prop :=
  ∃ cps : List Nat, unescapeOctets e = some (cps.flatMap utf8Encode) ∧
    (∀ cp ∈ cps, IsScalar cp) ∧
    cps.flatMap utf16Encode = s

/-! ## The well-formed order -/

/-- Modelled from the spec: a field the data model gives as "string or number
as applicable" (`size` and `status` of an item). -/
inductive Scalar (Num : Type)
  | str (s : JSString)
  | num (n : Num)

/-- The value a scalar field holds. -/
def Scalar.toValue : Scalar Num → JSValue Num
  | .str s => .string s
  | .num n => .number n

/-- The text of a scalar field: a string as it is, a number converted. -/
def Scalar.text (H : Host Num) : Scalar Num → JSString
  | .str s => s
  | .num n => H.numberToString n

/-- Modelled from the spec: the `delivery` object of the data model. -/
structure Delivery where
  name : JSString
  phone : JSString
  zip : JSString
  city : JSString
  address : JSString
  region : JSString
  email : JSString

/-- Modelled from the spec: the `payment` object of the data model. -/
structure Payment (Num : Type) where
  transaction : JSString
  currency : JSString
  provider : JSString
  amount : Num
  payment_dt : Num
  bank : JSString
  delivery_cost : Num
  goods_total : Num

/-- Modelled from the spec: one element of `items` in the data model. -/
structure Item (Num : Type) where
  name : JSString
  brand : JSString
  price : Num
  total_price : Num
  sale : Num
  size : Scalar Num
  status : Scalar Num

/-- Modelled from the spec: the Order of the data model, every field present
and of its type. -/
structure Order (Num : Type) where
  order_uid : JSString
  track_number : JSString
  entry : JSString
  customer_id : JSString
  delivery_service : JSString
  date_created : JSString
  delivery : Delivery
  payment : Payment Num
  items : List (Item Num)

/-- A delivery object as the script receives it. -/
def Delivery.toData (d : Delivery) : DeliveryData Num :=
  { name := .string d.name, phone := .string d.phone, zip := .string d.zip,
    city := .string d.city, address := .string d.address, region := .string d.region,
    email := .string d.email }

/-- A payment object as the script receives it. -/
def Payment.toData (p : Payment Num) : PaymentData Num :=
  { transaction := .string p.transaction, currency := .string p.currency,
    provider := .string p.provider, amount := .number p.amount,
    payment_dt := .number p.payment_dt, bank := .string p.bank,
    delivery_cost := .number p.delivery_cost, goods_total := .number p.goods_total }

/-- An item as the script receives it. -/
def Item.toData (i : Item Num) : ItemData Num :=
  { name := .string i.name, brand := .string i.brand, price := .number i.price,
    total_price := .number i.total_price, sale := .number i.sale,
    size := i.size.toValue, status := i.status.toValue }

/-- A well-formed order as the script receives it. -/
def Order.toData (o : Order Num) : OrderData Num :=
  { order_uid := .string o.order_uid, track_number := .string o.track_number,
    entry := .string o.entry, customer_id := .string o.customer_id,
    delivery_service := .string o.delivery_service, date_created := .string o.date_created,
    delivery := some o.delivery.toData, payment := some o.payment.toData,
    items := some (o.items.map (fun i => some i.toData)) }

/-! ## A concrete host and concrete data -/

/-- A host to evaluate the script on: integer Numbers in decimal, the
messages of one engine, and the payment date shown as its count of seconds
between brackets (one fixed locale). -/
def testHost : Host Int where
  numberToString := fun n => if n < 0 then lit "-" ++ decimal n.natAbs else decimal n.toNat
  toLocaleString := fun v =>
    match v with
    | .number n => lit "[" ++ decimal n.toNat ++ lit "]"
    | _ => lit "Invalid Date"
  cannotRead := fun name =>
    lit "Cannot read properties of undefined (reading '" ++ name ++ lit "')"
  uriError := lit "URI malformed"

/-- A page before any lookup, with the given text in the input. -/
def freshPage (input : JSString) : World :=
  { orderUid := input, orderResult := [], log := [] }

/-- A small well-formed order with two items. -/
def sampleOrder : Order Int :=
  { order_uid := lit "b563feb7b2b84b6test", track_number := lit "WBILMTESTTRACK",
    entry := lit "WBIL", customer_id := lit "test", delivery_service := lit "meest",
    date_created := lit "2021-11-26T06:22:19Z",
    delivery :=
      { name := lit "Test Testov", phone := lit "+9720000000", zip := lit "2639809",
        city := lit "Kiryat Mozkin", address := lit "Ploshad Mira 15",
        region := lit "Kraiot", email := lit "test@gmail.com" },
    payment :=
      { transaction := lit "b563feb7b2b84b6test", currency := lit "USD",
        provider := lit "wbpay", amount := 1817, payment_dt := 1637907727,
        bank := lit "alpha", delivery_cost := 1500, goods_total := 317 },
    items :=
      [ { name := lit "Mascaras", brand := lit "Vivienne Sabo", price := 453,
          total_price := 317, sale := 30, size := .str (lit "0"), status := .num 202 },
        { name := lit "Brush", brand := lit "Acme", price := 100,
          total_price := 90, sale := 10, size := .str (lit "M"), status := .num 200 } ] }

/-! ## Theorems: input validation and the state of the display -/

theorem trim_eq_nil_of_blank (s : JSString) (h : s.all isWhiteSpace = true) :
    trim s = [] := by
  have h1 : trimStart s = [] := by
    unfold trimStart
    exact List.dropWhile_eq_nil_iff.mpr (List.all_eq_true.mp h)
  simp [trim, h1, trimEnd]

theorem errorHTML_ne_loadingHTML (m : JSString) (hm : m = lit "Please enter Order UID") :
    errorHTML m ≠ loadingHTML := by
  subst hm
  decide

/-- C1: for a raw input that is empty or holds only white space, `getOrder`
shows the validation error 'Please enter Order UID' and returns: the display
region holds that error, the one effect of the call is that write, so no
request is issued and the loading indicator is never written. -/
theorem getOrder_blank_input (H : Host Num) (w : World)
    (h : w.orderUid.all isWhiteSpace = true) :
    (getOrder H w).thrown = none ∧
    (getOrder H w).world.orderResult = errorHTML (lit "Please enter Order UID") ∧
    errorHTML (lit "Please enter Order UID")
      = lit "\n        <div class=\"error\">Please enter Order UID</div>\n    " ∧
    (getOrder H w).world.log
      = w.log ++ [Effect.setInnerHTML (errorHTML (lit "Please enter Order UID"))] ∧
    (∀ url, Effect.fetch url ∉ [Effect.setInnerHTML (errorHTML (lit "Please enter Order UID"))]) ∧
    Effect.setInnerHTML loadingHTML
      ∉ [Effect.setInnerHTML (errorHTML (lit "Please enter Order UID"))] := by
  have ht := trim_eq_nil_of_blank w.orderUid h
  refine ⟨?_, ?_, by decide, ?_, ?_, ?_⟩
  · simp [getOrder, ht]
  · simp [getOrder, ht, showError, setInnerHTML]
  · simp [getOrder, ht, showError, setInnerHTML]
  · intro url; simp
  · simp only [List.mem_singleton, Effect.setInnerHTML.injEq]
    exact fun h => errorHTML_ne_loadingHTML _ rfl h.symm

theorem getOrder_blank_input_witness :
    (freshPage (lit " \t\n")).orderUid.all isWhiteSpace = true ∧
    (getOrder testHost (freshPage (lit " \t\n"))).world.orderResult
      = errorHTML (lit "Please enter Order UID") :=
  ⟨by decide, (getOrder_blank_input testHost (freshPage (lit " \t\n")) (by decide)).2.1⟩

/-- C7 (as stated, refuted): it is not true that every call of `getOrder`
leaves the display region on the loading indicator; a call with an empty
input leaves it on the validation error. -/
theorem getOrder_not_always_loading :
    ¬ ∀ w : World, (getOrder testHost w).world.orderResult = loadingHTML := by
  intro h
  have h0 := h (freshPage [])
  revert h0
  decide

/-- C7 (amended): from any content of the display region, a call of
`getOrder` leaves the region on the loading indicator when the trimmed input
is not empty, and on the validation error when it is empty. -/
theorem getOrder_display_state (H : Host Num) (w : World) :
    (getOrder H w).world.orderResult
      = if trim w.orderUid = [] then errorHTML (lit "Please enter Order UID")
        else loadingHTML := by
  unfold getOrder
  by_cases ht : trim w.orderUid = []
  · simp [ht, showError, setInnerHTML]
  · simp only [ht, if_false]
    cases encodeURIComponent H.uriError (trim w.orderUid) <;>
      simp [showLoading, setInnerHTML, fetch]

/-! ## Theorems: the outcome of the request -/

theorem responseOk_eq_false (status : Nat) (h : ¬ (200 ≤ status ∧ status ≤ 299)) :
    responseOk status = false := by
  simp only [responseOk, Bool.and_eq_false_imp, decide_eq_true_eq, decide_eq_false_iff_not]
  intro h1 h2
  exact h ⟨h1, h2⟩

theorem responseOk_eq_true (status : Nat) (h : 200 ≤ status ∧ status ≤ 299) :
    responseOk status = true := by
  simp [responseOk, h.1, h.2]

theorem onResponse_of_not_ok (status : Nat) (json : Except JSError (OrderData Num))
    (h : responseOk status = false) :
    onResponse status json
      = .error ⟨if status = 404 then lit "Order not found"
          else if status = 400 then lit "Invalid Order UID"
          else lit "Server error: " ++ decimal status⟩ := by
  unfold onResponse
  simp only [h, Bool.not_false, if_true]
  split_ifs <;> rfl

/-- C3: for a response whose status is outside 200..299, whatever its body,
the promise chain shows exactly one error and never renders the order: the
message is 'Error: Order not found' for 404, 'Error: Invalid Order UID' for
400, and 'Error: Server error: ' followed by the decimal status otherwise
(so 'Error: Server error: 500' for 500). -/
theorem settle_error_status (H : Host Num) (status : Nat)
    (json : Except JSError (OrderData Num)) (w : World)
    (h : ¬ (200 ≤ status ∧ status ≤ 299)) :
    (settle H (.response status json) w).orderResult
      = errorHTML (if status = 404 then lit "Error: Order not found"
          else if status = 400 then lit "Error: Invalid Order UID"
          else lit "Error: Server error: " ++ decimal status) ∧
    (settle H (.response status json) w).log
      = w.log ++ [Effect.setInnerHTML (settle H (.response status json) w).orderResult] ∧
    lit "Error: Server error: " ++ decimal 500 = lit "Error: Server error: 500" := by
  have hr := onResponse_of_not_ok status json (responseOk_eq_false status h)
  have e1 : lit "Error: " ++ lit "Order not found" = lit "Error: Order not found" := by decide
  have e2 : lit "Error: " ++ lit "Invalid Order UID" = lit "Error: Invalid Order UID" := by decide
  have e3 : lit "Error: " ++ (lit "Server error: " ++ decimal status)
      = lit "Error: Server error: " ++ decimal status := by
    rw [← List.append_assoc]
    congr 1
  have hs : settle H (.response status json) w
      = showError (if status = 404 then lit "Error: Order not found"
          else if status = 400 then lit "Error: Invalid Order UID"
          else lit "Error: Server error: " ++ decimal status) w := by
    simp only [settle, hr, onError]
    split_ifs
    · rw [e1]
    · rw [e2]
    · rw [e3]
  refine ⟨?_, ?_, by decide⟩
  · rw [hs]; rfl
  · rw [hs]; rfl

theorem settle_error_status_witness :
    ¬ (200 ≤ 500 ∧ 500 ≤ 299) ∧
    (settle testHost (.response 500 (.ok sampleOrder.toData)) (freshPage [])).orderResult
      = errorHTML (if 500 = 404 then lit "Error: Order not found"
          else if 500 = 400 then lit "Error: Invalid Order UID"
          else lit "Error: Server error: " ++ decimal 500) :=
  ⟨by decide,
   (settle_error_status testHost 500 (.ok sampleOrder.toData) (freshPage []) (by decide)).1⟩

/-- C8: when the request fails in transport (the promise of `fetch` rejects
with error `e`), and when a response with a success status has a body whose
decoding fails with error `e`, the promise chain ends in `showError` with
'Error: ' followed by the message of `e`: the display region holds that one
error, the order is not rendered, and the only effect is that write, so no
further request is issued. -/
theorem settle_failure (H : Host Num) (e : JSError) (status : Nat) (w : World)
    (h : 200 ≤ status ∧ status ≤ 299) :
    settle H (.rejected e) w = showError (lit "Error: " ++ e.message) w ∧
    settle H (.response status (.error e)) w = showError (lit "Error: " ++ e.message) w ∧
    (showError (lit "Error: " ++ e.message) w).orderResult
      = errorHTML (lit "Error: " ++ e.message) ∧
    (showError (lit "Error: " ++ e.message) w).log
      = w.log ++ [Effect.setInnerHTML (errorHTML (lit "Error: " ++ e.message))] := by
  have hok := responseOk_eq_true status h
  refine ⟨?_, ?_, ?_, ?_⟩
  · simp [settle, onError]
  · simp [settle, onResponse, hok, onError]
  · simp [showError, setInnerHTML]
  · simp [showError, setInnerHTML]

theorem settle_failure_witness :
    (200 ≤ 200 ∧ 200 ≤ 299) ∧
    settle testHost (.response 200 (.error ⟨lit "Unexpected token"⟩)) (freshPage [])
      = showError (lit "Error: " ++ lit "Unexpected token") (freshPage []) :=
  ⟨by decide,
   (settle_failure testHost ⟨lit "Unexpected token"⟩ 200 (freshPage []) (by decide)).2.1⟩

/-- C9: for an order value in which `delivery`, `payment` or `items` is
absent, `displayOrder` throws and writes nothing (no layout, with or without
placeholders, reaches the display region); reached through the promise chain
of `getOrder` on a success response, the display region ends on the error
message 'Error: ' followed by the message of what was thrown, and that write
is the only effect. -/
theorem displayOrder_missing_object (H : Host Num) (o : OrderData Num) (status : Nat)
    (w : World) (h : o.delivery = none ∨ o.payment = none ∨ o.items = none)
    (hs : 200 ≤ status ∧ status ≤ 299) :
    ∃ e, displayOrder H o w = .error e ∧
      settle H (.response status (.ok o)) w = showError (lit "Error: " ++ e.message) w ∧
      (settle H (.response status (.ok o)) w).orderResult
        = errorHTML (lit "Error: " ++ e.message) ∧
      (settle H (.response status (.ok o)) w).log
        = w.log ++ [Effect.setInnerHTML (errorHTML (lit "Error: " ++ e.message))] := by
  have hok := responseOk_eq_true status hs
  have key : ∃ e, orderHTML H o = .error e := by
    unfold orderHTML
    cases hd : o.delivery with
    | none => exact ⟨⟨H.cannotRead (lit "name")⟩, by simp [readFrom]⟩
    | some d =>
      cases hp : o.payment with
      | none => exact ⟨⟨H.cannotRead (lit "transaction")⟩, by simp [readFrom]⟩
      | some p =>
        cases hi : o.items with
        | none => exact ⟨⟨H.cannotRead (lit "length")⟩, by simp [readFrom]⟩
        | some i => simp [hd, hp, hi] at h
  obtain ⟨e, he⟩ := key
  refine ⟨e, ?_, ?_, ?_, ?_⟩
  · simp [displayOrder, he]
  · simp [settle, onResponse, hok, displayOrder, he, onError]
  · simp [settle, onResponse, hok, displayOrder, he, onError, showError, setInnerHTML]
  · simp [settle, onResponse, hok, displayOrder, he, onError, showError, setInnerHTML]

theorem displayOrder_missing_object_witness :
    (({ sampleOrder.toData with delivery := none } : OrderData Int).delivery = none ∨
      ({ sampleOrder.toData with delivery := none } : OrderData Int).payment = none ∨
      ({ sampleOrder.toData with delivery := none } : OrderData Int).items = none) ∧
    (200 ≤ 200 ∧ 200 ≤ 299) ∧
    ∃ e, displayOrder testHost { sampleOrder.toData with delivery := none } (freshPage [])
        = .error e ∧
      settle testHost (.response 200 (.ok { sampleOrder.toData with delivery := none }))
          (freshPage [])
        = showError (lit "Error: " ++ e.message) (freshPage []) ∧
      (settle testHost (.response 200 (.ok { sampleOrder.toData with delivery := none }))
          (freshPage [])).orderResult
        = errorHTML (lit "Error: " ++ e.message) ∧
      (settle testHost (.response 200 (.ok { sampleOrder.toData with delivery := none }))
          (freshPage [])).log
        = (freshPage []).log ++ [Effect.setInnerHTML (errorHTML (lit "Error: " ++ e.message))] :=
  ⟨Or.inl rfl, by decide,
   displayOrder_missing_object testHost { sampleOrder.toData with delivery := none } 200
     (freshPage []) (Or.inl rfl) (by decide)⟩

/-- C10: with the host (locale and timezone) fixed, what `displayOrder` does
is a function of the order alone: there is one result, a markup string or an
error, such that from every page the call either writes that markup over the
display region or throws that error; so two calls with the same order, run
one after the other, leave the same content as one call. -/
theorem displayOrder_deterministic (H : Host Num) (o : OrderData Num) :
    ∃ r : Except JSError JSString,
      (∀ w, displayOrder H o w = r.map (fun html => setInnerHTML html w)) ∧
      (∀ w, (displayOrder H o w).map World.orderResult = r) ∧
      (∀ w, ((displayOrder H o w).bind (displayOrder H o)).map World.orderResult = r) := by
  refine ⟨orderHTML H o, ?_, ?_, ?_⟩
  · intro w
    unfold displayOrder
    cases orderHTML H o <;> rfl
  · intro w
    unfold displayOrder
    cases orderHTML H o <;> rfl
  · intro w
    unfold displayOrder
    cases hh : orderHTML H o with
    | error e => rfl
    | ok html => simp [Except.bind, Except.map, hh, setInnerHTML]

/-! ## Theorems: the rendered order -/

theorem mapItems_toData (H : Host Num) (items : List (Item Num)) :
    mapItems H (items.map (fun i => some i.toData))
      = .ok (items.map (fun i => itemHTML H i.toData)) := by
  induction items with
  | nil => rfl
  | cons i rest ih => simp [mapItems, readFrom, ih]

theorem orderHTML_toData (H : Host Num) (o : Order Num) :
    orderHTML H o.toData
      = .ok (List.flatten (orderParts H o.toData o.delivery.toData o.payment.toData
          o.items.length (List.flatten (o.items.map (fun i => itemHTML H i.toData))))) := by
  simp [orderHTML, Order.toData, readFrom, mapItems_toData]

theorem displayOrder_toData (H : Host Num) (o : Order Num) (w : World) :
    displayOrder H o.toData w
      = .ok (setInnerHTML (List.flatten (orderParts H o.toData o.delivery.toData
          o.payment.toData o.items.length
          (List.flatten (o.items.map (fun i => itemHTML H i.toData))))) w) := by
  simp [displayOrder, orderHTML_toData]

theorem toStr_text (H : Host Num) (x : Scalar Num) : toStr H x.toValue = x.text H := by
  cases x <;> rfl

theorem sale_percent_within (H : Host Num) (item : ItemData Num) :
    (toStr H item.sale ++ lit "%") <:+: itemHTML H item := by
  have hsplit : lit "%</p>\n                        <p><strong>Size:</strong> "
      = lit "%" ++ lit "</p>\n                        <p><strong>Size:</strong> " := by decide
  refine ⟨List.flatten ((itemParts H item).take 9),
    lit "</p>\n                        <p><strong>Size:</strong> "
      ++ List.flatten ((itemParts H item).drop 11), ?_⟩
  simp only [itemHTML, itemParts, hsplit, List.take, List.drop, List.flatten, List.append_assoc,
    List.append_nil]

/-- C4: for a well-formed order, `displayOrder` succeeds and the markup it
writes to the display region contains every field value as it is: the six
top-level strings, the seven delivery strings, the payment strings and the
string conversions of the payment numbers, the formatted payment date, and
for every item its name, brand, price, total price, size and status, with
the sale value directly followed by '%'. -/
theorem displayOrder_contains_fields (H : Host Num) (o : Order Num) (w : World) :
    ∃ html, displayOrder H o.toData w = .ok (setInnerHTML html w) ∧
      (o.order_uid <:+: html ∧ o.track_number <:+: html ∧ o.entry <:+: html ∧
        o.customer_id <:+: html ∧ o.delivery_service <:+: html ∧ o.date_created <:+: html) ∧
      (o.delivery.name <:+: html ∧ o.delivery.phone <:+: html ∧ o.delivery.zip <:+: html ∧
        o.delivery.city <:+: html ∧ o.delivery.address <:+: html ∧
        o.delivery.region <:+: html ∧ o.delivery.email <:+: html) ∧
      (o.payment.transaction <:+: html ∧ o.payment.currency <:+: html ∧
        o.payment.provider <:+: html ∧ H.numberToString o.payment.amount <:+: html ∧
        H.toLocaleString (.number o.payment.payment_dt) <:+: html ∧
        o.payment.bank <:+: html ∧ H.numberToString o.payment.delivery_cost <:+: html ∧
        H.numberToString o.payment.goods_total <:+: html) ∧
      (∀ it ∈ o.items,
        it.name <:+: html ∧ it.brand <:+: html ∧ H.numberToString it.price <:+: html ∧
        H.numberToString it.total_price <:+: html ∧
        (H.numberToString it.sale ++ lit "%") <:+: html ∧
        it.size.text H <:+: html ∧ it.status.text H <:+: html) := by
  refine ⟨_, displayOrder_toData H o w, ?_, ?_, ?_, ?_⟩
  · refine ⟨?_, ?_, ?_, ?_, ?_, ?_⟩ <;>
      exact List.infix_of_mem_flatten (by simp [orderParts, Order.toData, toStr])
  · refine ⟨?_, ?_, ?_, ?_, ?_, ?_, ?_⟩ <;>
      exact List.infix_of_mem_flatten (by simp [orderParts, Delivery.toData, toStr])
  · refine ⟨?_, ?_, ?_, ?_, ?_, ?_, ?_, ?_⟩ <;>
      exact List.infix_of_mem_flatten (by simp [orderParts, Payment.toData, toStr])
  · intro it hit
    have hblock : itemHTML H it.toData <:+: List.flatten (orderParts H o.toData
        o.delivery.toData o.payment.toData o.items.length
        (List.flatten (o.items.map (fun i => itemHTML H i.toData)))) := by
      have hmem : itemHTML H it.toData ∈ o.items.map (fun i => itemHTML H i.toData) :=
        List.mem_map.mpr ⟨it, hit, rfl⟩
      refine List.IsInfix.trans (List.infix_of_mem_flatten hmem) ?_
      exact List.infix_of_mem_flatten (by simp [orderParts])
    have hin : ∀ x, x ∈ itemParts H it.toData → x <:+: List.flatten (orderParts H o.toData
        o.delivery.toData o.payment.toData o.items.length
        (List.flatten (o.items.map (fun i => itemHTML H i.toData)))) :=
      fun x hx => List.IsInfix.trans (List.infix_of_mem_flatten hx) hblock
    refine ⟨?_, ?_, ?_, ?_, ?_, ?_, ?_⟩
    · exact hin _ (by simp [itemParts, Item.toData, toStr])
    · exact hin _ (by simp [itemParts, Item.toData, toStr])
    · exact hin _ (by simp [itemParts, Item.toData, toStr])
    · exact hin _ (by simp [itemParts, Item.toData, toStr])
    · exact List.IsInfix.trans (sale_percent_within H it.toData) hblock
    · exact hin _ (by simp [itemParts, Item.toData, toStr_text])
    · exact hin _ (by simp [itemParts, Item.toData, toStr_text])

theorem orderParts_section (H : Host Num) (order : OrderData Num) (delivery : DeliveryData Num)
    (payment : PaymentData Num) (count : Nat) (joined : JSString) :
    List.flatten (orderParts H order delivery payment count joined)
      = (List.flatten ((orderParts H order delivery payment 0 []).take 42)
          ++ lit "</p>\n            </div>\n            \n            <div class=\"section\">\n                ")
        ++ lit "<div class=\"section-title\">Items (" ++ decimal count
        ++ lit ")</div>\n                " ++ joined
        ++ lit "\n            </div>\n        </div>\n    " := by
  have hsplit : lit "</p>\n            </div>\n            \n            <div class=\"section\">\n                <div class=\"section-title\">Items ("
      = lit "</p>\n            </div>\n            \n            <div class=\"section\">\n                "
        ++ lit "<div class=\"section-title\">Items (" := by decide
  simp only [orderParts, hsplit, List.take, List.flatten, List.append_assoc, List.append_nil]

/-- C5: for a well-formed order with `n` items, the markup `displayOrder`
writes ends with the items section: the header 'Items (n)', then exactly `n`
item blocks, the `k`-th being the block of the `k`-th item of the input, then
the closing of the section; for an order with no items the header reads
'Items (0)' and the closing follows it with no block in between. -/
theorem displayOrder_items_section (H : Host Num) (o : Order Num) (w : World) :
    ∃ (before : JSString) (blocks : List JSString),
      displayOrder H o.toData w
        = .ok (setInnerHTML (before
            ++ lit "<div class=\"section-title\">Items (" ++ decimal o.items.length
            ++ lit ")</div>\n                " ++ List.flatten blocks
            ++ lit "\n            </div>\n        </div>\n    ") w) ∧
      blocks.length = o.items.length ∧
      (∀ k : Fin o.items.length, blocks[k.val]? = some (itemHTML H (o.items.get k).toData)) ∧
      blocks = o.items.map (fun it => itemHTML H it.toData) ∧
      displayOrder H ({ o with items := [] } : Order Num).toData w
        = .ok (setInnerHTML (before
            ++ lit "<div class=\"section-title\">Items (0)</div>\n                \n            </div>\n        </div>\n    ") w) := by
  refine ⟨List.flatten ((orderParts H o.toData o.delivery.toData o.payment.toData 0 []).take 42)
      ++ lit "</p>\n            </div>\n            \n            <div class=\"section\">\n                ",
    o.items.map (fun it => itemHTML H it.toData), ?_, ?_, ?_, rfl, ?_⟩
  · rw [displayOrder_toData, orderParts_section]
  · simp
  · intro k
    simp
  · rw [displayOrder_toData, orderParts_section]
    have h0 : lit "<div class=\"section-title\">Items (" ++ decimal 0
        ++ lit ")</div>\n                " ++ ([] : JSString)
        ++ lit "\n            </div>\n        </div>\n    "
        = lit "<div class=\"section-title\">Items (0)</div>\n                \n            </div>\n        </div>\n    " := by
      decide
    have hp : (orderParts H ({ o with items := [] } : Order Num).toData o.delivery.toData
        o.payment.toData 0 []).take 42
        = (orderParts H o.toData o.delivery.toData o.payment.toData 0 []).take 42 := rfl
    simp only [List.map_nil, List.flatten_nil, List.length_nil, hp]
    rw [← h0]
    simp only [List.append_assoc]

/-! ## Theorems: the outbound request -/

theorem unit_val (c : CodeUnit) : unit c.val = c := by
  apply Fin.ext
  simp [unit, Nat.mod_eq_of_lt c.isLt]

theorem hexValue_hexDigit (n : Nat) (h : n < 16) : hexValue (hexDigit n) = some n := by
  interval_cases n <;> decide

theorem unescapeOctets_escapeOctet (b : Nat) (hb : b < 256) (r : JSString) :
    unescapeOctets (escapeOctet b ++ r) = (unescapeOctets r).map (fun x => b :: x) := by
  have h1 : b / 16 < 16 := by omega
  have h2 : b % 16 < 16 := by omega
  have h3 : 16 * (b / 16) + b % 16 = b := by omega
  have h4 : (unit 0x25).val = 0x25 := by decide
  have h5 : escapeOctet b ++ r = unit 0x25 :: hexDigit (b / 16) :: hexDigit (b % 16) :: r := rfl
  rw [h5]
  simp only [unescapeOctets, h4, if_true, hexValue_hexDigit _ h1, hexValue_hexDigit _ h2]
  cases unescapeOctets r with
  | none => rfl
  | some x => simp only [h3, Option.map_some']

theorem unescapeOctets_escapes (bs : List Nat) (h : ∀ b ∈ bs, b < 256) (r : JSString) :
    unescapeOctets (bs.flatMap escapeOctet ++ r) = (unescapeOctets r).map (fun x => bs ++ x) := by
  induction bs with
  | nil => simp
  | cons b rest ih =>
    have hb : b < 256 := h b (List.mem_cons_self _ _)
    have hrest : ∀ x ∈ rest, x < 256 := fun x hx => h x (List.mem_cons_of_mem _ hx)
    rw [List.flatMap_cons, List.append_assoc, unescapeOctets_escapeOctet b hb, ih hrest]
    cases unescapeOctets r <;> rfl

theorem utf8Encode_lt (cp : Nat) (h : cp < 0x110000) : ∀ b ∈ utf8Encode cp, b < 256 := by
  intro b hb
  unfold utf8Encode at hb
  split_ifs at hb <;> simp at hb <;> omega

theorem utf8DecodeOne_utf8Encode (cp : Nat) (h1 : cp < 0x110000)
    (h2 : ¬ (0xD800 ≤ cp ∧ cp ≤ 0xDFFF)) (bs : List Nat) :
    utf8DecodeOne (utf8Encode cp ++ bs) = some (cp, bs) := by
  unfold utf8Encode
  split_ifs with c1 c2 c3
  · simp only [List.cons_append, List.nil_append, utf8DecodeOne, c1, if_true]
  · have e : (0xC0 + cp / 64 - 0xC0) * 64 + (0x80 + cp % 64 - 0x80) = cp := by omega
    have a1 : ¬ (0xC0 + cp / 64 < 0x80) := by omega
    have a2 : ¬ (0xC0 + cp / 64 < 0xC0) := by omega
    have a3 : 0xC0 + cp / 64 < 0xE0 := by omega
    have a4 : isContinuation (0x80 + cp % 64) = true := by
      simp only [isContinuation, Bool.and_eq_true, decide_eq_true_eq]; omega
    have a5 : 0x80 ≤ cp := by omega
    simp only [List.cons_append, List.nil_append, utf8DecodeOne, a1, a2, a3, a4, e, a5, if_true,
      if_false, decide_True, Bool.and_self]
  · have d1 : cp / 4096 = cp / 64 / 64 := by rw [Nat.div_div_eq_div_mul]
    have e : (0xE0 + cp / 4096 - 0xE0) * 4096 + (0x80 + cp / 64 % 64 - 0x80) * 64
        + (0x80 + cp % 64 - 0x80) = cp := by omega
    have a1 : ¬ (0xE0 + cp / 4096 < 0x80) := by omega
    have a2 : ¬ (0xE0 + cp / 4096 < 0xC0) := by omega
    have a3 : ¬ (0xE0 + cp / 4096 < 0xE0) := by omega
    have a4 : 0xE0 + cp / 4096 < 0xF0 := by omega
    have a5 : isContinuation (0x80 + cp / 64 % 64) = true := by
      simp only [isContinuation, Bool.and_eq_true, decide_eq_true_eq]; omega
    have a6 : isContinuation (0x80 + cp % 64) = true := by
      simp only [isContinuation, Bool.and_eq_true, decide_eq_true_eq]; omega
    have a7 : 0x800 ≤ cp := by omega
    have a8 : (decide (0xD800 ≤ cp) && decide (cp ≤ 0xDFFF)) = false := by
      simp only [Bool.and_eq_false_imp, decide_eq_true_eq, decide_eq_false_iff_not]
      intro x y
      exact h2 ⟨x, y⟩
    simp only [List.cons_append, List.nil_append, utf8DecodeOne, a1, a2, a3, a4, a5, a6, e, a7,
      a8, if_true, if_false, decide_True, Bool.and_self, Bool.not_false]
  · have d1 : cp / 4096 = cp / 64 / 64 := by rw [Nat.div_div_eq_div_mul]
    have d2 : cp / 262144 = cp / 4096 / 64 := by rw [Nat.div_div_eq_div_mul]
    have e : (0xF0 + cp / 262144 - 0xF0) * 262144 + (0x80 + cp / 4096 % 64 - 0x80) * 4096
        + (0x80 + cp / 64 % 64 - 0x80) * 64 + (0x80 + cp % 64 - 0x80) = cp := by omega
    have a1 : ¬ (0xF0 + cp / 262144 < 0x80) := by omega
    have a2 : ¬ (0xF0 + cp / 262144 < 0xC0) := by omega
    have a3 : ¬ (0xF0 + cp / 262144 < 0xE0) := by omega
    have a4 : ¬ (0xF0 + cp / 262144 < 0xF0) := by omega
    have a5 : 0xF0 + cp / 262144 < 0xF8 := by omega
    have a6 : isContinuation (0x80 + cp / 4096 % 64) = true := by
      simp only [isContinuation, Bool.and_eq_true, decide_eq_true_eq]; omega
    have a7 : isContinuation (0x80 + cp / 64 % 64) = true := by
      simp only [isContinuation, Bool.and_eq_true, decide_eq_true_eq]; omega
    have a8 : isContinuation (0x80 + cp % 64) = true := by
      simp only [isContinuation, Bool.and_eq_true, decide_eq_true_eq]; omega
    have a9 : 0x10000 ≤ cp := by omega
    have a10 : cp ≤ 0x10FFFF := by omega
    simp only [List.cons_append, List.nil_append, utf8DecodeOne, a1, a2, a3, a4, a5, a6, a7, a8,
      e, a9, a10, if_true, if_false, decide_True, Bool.and_self]

theorem utf8Encode_ne_nil (cp : Nat) : 1 ≤ (utf8Encode cp).length := by
  unfold utf8Encode
  split_ifs <;> simp

theorem utf8DecodeFuel_encode (cps : List Nat) (h : ∀ cp ∈ cps, IsScalar cp) :
    ∀ fuel, (cps.flatMap utf8Encode).length ≤ fuel →
      utf8DecodeFuel fuel (cps.flatMap utf8Encode) = some cps := by
  induction cps with
  | nil => intro fuel _; cases fuel <;> rfl
  | cons cp rest ih =>
    intro fuel hfuel
    have hcp : IsScalar cp := h cp (List.mem_cons_self _ _)
    have hrest : ∀ x ∈ rest, IsScalar x := fun x hx => h x (List.mem_cons_of_mem _ hx)
    have hone := utf8DecodeOne_utf8Encode cp hcp.1 hcp.2 (rest.flatMap utf8Encode)
    have hlen := utf8Encode_ne_nil cp
    rw [List.flatMap_cons] at hfuel ⊢
    rw [List.length_append] at hfuel
    cases hfl : utf8Encode cp ++ rest.flatMap utf8Encode with
    | nil =>
      have : (utf8Encode cp ++ rest.flatMap utf8Encode).length = 0 := by rw [hfl]; rfl
      rw [List.length_append] at this
      omega
    | cons b tl =>
      cases fuel with
      | zero => omega
      | succ n =>
        rw [hfl] at hone
        simp only [utf8DecodeFuel, hone]
        rw [ih hrest n (by omega)]

theorem utf8Decode_encode (cps : List Nat) (h : ∀ cp ∈ cps, IsScalar cp) :
    utf8Decode (cps.flatMap utf8Encode) = some cps :=
  utf8DecodeFuel_encode cps h _ (Nat.le_refl _)

theorem encodeURIComponent_nil (m : JSString) : encodeURIComponent m [] = .ok [] := rfl

theorem unreserved_ascii (c : CodeUnit) (h : isUnreserved c = true) :
    c.val < 0x80 ∧ c.val ≠ 0x25 := by
  simp only [isUnreserved, Bool.or_eq_true, Bool.and_eq_true, decide_eq_true_eq,
    beq_iff_eq] at h
  omega

theorem unescapeOctets_single (c : CodeUnit) :
    unescapeOctets [c]
      = if c.val = 0x25 then none
        else if c.val < 0x80 then
          match unescapeOctets [] with
          | some x => some (c.val :: x)
          | none => none
        else none := rfl

theorem unescapeOctets_two (c a : CodeUnit) :
    unescapeOctets [c, a]
      = if c.val = 0x25 then none
        else if c.val < 0x80 then
          match unescapeOctets [a] with
          | some x => some (c.val :: x)
          | none => none
        else none := rfl

theorem unescapeOctets_three (c a b : CodeUnit) (r : JSString) :
    unescapeOctets (c :: a :: b :: r)
      = if c.val = 0x25 then
          match hexValue a, hexValue b, unescapeOctets r with
          | some x, some y, some t => some ((16 * x + y) :: t)
          | _, _, _ => none
        else if c.val < 0x80 then
          match unescapeOctets (a :: b :: r) with
          | some x => some (c.val :: x)
          | none => none
        else none := rfl

theorem unescapeOctets_ascii (c : CodeUnit) (h : c.val < 0x80 ∧ c.val ≠ 0x25) (r : JSString) :
    unescapeOctets (c :: r) = (unescapeOctets r).map (fun x => c.val :: x) := by
  rcases r with _ | ⟨a, _ | ⟨b, r2⟩⟩
  · rw [unescapeOctets_single, if_neg h.2, if_pos h.1]
    rfl
  · rw [unescapeOctets_two, if_neg h.2, if_pos h.1]
    cases unescapeOctets [a] <;> rfl
  · rw [unescapeOctets_three, if_neg h.2, if_pos h.1]
    cases unescapeOctets (a :: b :: r2) <;> rfl

theorem unescapeOctets_escapeCodePoint (cp : Nat) (h : cp < 0x110000) (r : JSString) :
    unescapeOctets (escapeCodePoint cp ++ r)
      = (unescapeOctets r).map (fun x => utf8Encode cp ++ x) :=
  unescapeOctets_escapes (utf8Encode cp) (utf8Encode_lt cp h) r

theorem utf16Encode_unit (c : CodeUnit) : utf16Encode c.val = [c] := by
  have h : c.val < 0x10000 := c.isLt
  simp only [utf16Encode, h, if_true, unit_val]

theorem utf16Encode_pair (c d : CodeUnit) (hc : isLeadSurrogate c = true)
    (hd : isTrailSurrogate d = true) :
    utf16Encode (surrogatePairToCodePoint c d) = [c, d] := by
  simp only [isLeadSurrogate, isTrailSurrogate, Bool.and_eq_true, decide_eq_true_eq] at hc hd
  have h0 : ¬ (surrogatePairToCodePoint c d < 0x10000) := by
    unfold surrogatePairToCodePoint; omega
  have h1 : 0xD800 + (surrogatePairToCodePoint c d - 0x10000) / 0x400 = c.val := by
    unfold surrogatePairToCodePoint; omega
  have h2 : 0xDC00 + (surrogatePairToCodePoint c d - 0x10000) % 0x400 = d.val := by
    unfold surrogatePairToCodePoint; omega
  simp only [utf16Encode, h0, if_false, h1, h2, unit_val]

theorem isScalar_unit (c : CodeUnit) (h1 : isLeadSurrogate c = false)
    (h2 : isTrailSurrogate c = false) : IsScalar c.val := by
  have h : c.val < 0x10000 := c.isLt
  simp only [isLeadSurrogate, isTrailSurrogate, Bool.and_eq_false_imp, decide_eq_true_eq,
    decide_eq_false_iff_not] at h1 h2
  unfold IsScalar
  omega

theorem isScalar_pair (c d : CodeUnit) (hc : isLeadSurrogate c = true)
    (hd : isTrailSurrogate d = true) : IsScalar (surrogatePairToCodePoint c d) := by
  simp only [isLeadSurrogate, isTrailSurrogate, Bool.and_eq_true, decide_eq_true_eq] at hc hd
  unfold IsScalar surrogatePairToCodePoint
  omega

theorem percentDecode_of_decodes (e s : JSString) (h : Decodes e s) :
    percentDecode e = some s := by
  obtain ⟨cps, h1, h2, h3⟩ := h
  simp only [percentDecode, h1, utf8Decode_encode cps h2, h3]

theorem decodes_nil : Decodes [] [] :=
  ⟨[], rfl, by simp, rfl⟩

theorem decodes_unreserved (c : CodeUnit) (hc : isUnreserved c = true) (e s : JSString)
    (h : Decodes e s) : Decodes (c :: e) (c :: s) := by
  obtain ⟨cps, h1, h2, h3⟩ := h
  have ha := unreserved_ascii c hc
  have hu : utf8Encode c.val = [c.val] := by simp [utf8Encode, ha.1]
  have hs : IsScalar c.val := by unfold IsScalar; omega
  refine ⟨c.val :: cps, ?_, ?_, ?_⟩
  · rw [unescapeOctets_ascii c ha, h1, List.flatMap_cons, hu]
    rfl
  · intro cp hcp
    rcases List.mem_cons.mp hcp with rfl | hmem
    · exact hs
    · exact h2 cp hmem
  · rw [List.flatMap_cons, utf16Encode_unit, h3]
    rfl

theorem decodes_escape (c : CodeUnit) (h1c : isLeadSurrogate c = false)
    (h2c : isTrailSurrogate c = false) (e s : JSString) (h : Decodes e s) :
    Decodes (escapeCodePoint c.val ++ e) (c :: s) := by
  obtain ⟨cps, h1, h2, h3⟩ := h
  have hs := isScalar_unit c h1c h2c
  refine ⟨c.val :: cps, ?_, ?_, ?_⟩
  · rw [unescapeOctets_escapeCodePoint c.val hs.1, h1, List.flatMap_cons]
    rfl
  · intro cp hcp
    rcases List.mem_cons.mp hcp with rfl | hmem
    · exact hs
    · exact h2 cp hmem
  · rw [List.flatMap_cons, utf16Encode_unit, h3]
    rfl

theorem decodes_pair (c d : CodeUnit) (hc : isLeadSurrogate c = true)
    (hd : isTrailSurrogate d = true) (e s : JSString) (h : Decodes e s) :
    Decodes (escapeCodePoint (surrogatePairToCodePoint c d) ++ e) (c :: d :: s) := by
  obtain ⟨cps, h1, h2, h3⟩ := h
  have hs := isScalar_pair c d hc hd
  refine ⟨surrogatePairToCodePoint c d :: cps, ?_, ?_, ?_⟩
  · rw [unescapeOctets_escapeCodePoint _ hs.1, h1, List.flatMap_cons]
    rfl
  · intro cp hcp
    rcases List.mem_cons.mp hcp with rfl | hmem
    · exact hs
    · exact h2 cp hmem
  · rw [List.flatMap_cons, utf16Encode_pair c d hc hd, h3]
    rfl

theorem encodeURIComponent_cons (m : JSString) (c : CodeUnit) (rest : JSString) :
    encodeURIComponent m (c :: rest)
      = if isUnreserved c then
          match encodeURIComponent m rest with
          | .ok r => .ok (c :: r)
          | .error e => .error e
        else if isLeadSurrogate c then
          match rest with
          | [] => .error ⟨m⟩
          | d :: rest2 =>
            if isTrailSurrogate d then
              match encodeURIComponent m rest2 with
              | .ok r => .ok (escapeCodePoint (surrogatePairToCodePoint c d) ++ r)
              | .error e => .error e
            else .error ⟨m⟩
        else if isTrailSurrogate c then .error ⟨m⟩
        else
          match encodeURIComponent m rest with
          | .ok r => .ok (escapeCodePoint c.val ++ r)
          | .error e => .error e := by
  cases rest <;> rfl

theorem isWellFormed_cons (c : CodeUnit) (rest : JSString) :
    isWellFormed (c :: rest)
      = if isLeadSurrogate c then
          match rest with
          | [] => false
          | d :: rest2 => isTrailSurrogate d && isWellFormed rest2
        else if isTrailSurrogate c then false
        else isWellFormed rest := by
  cases rest <;> rfl

theorem encodeURIComponent_decodes (m : JSString) :
    ∀ (n : Nat) (s : JSString), s.length ≤ n →
      ∀ e, encodeURIComponent m s = .ok e → Decodes e s := by
  intro n
  induction n with
  | zero =>
    intro s hs e he
    have hnil : s = [] := List.length_eq_zero.mp (Nat.le_zero.mp hs)
    subst hnil
    rw [encodeURIComponent_nil] at he
    cases he
    exact decodes_nil
  | succ n ih =>
    intro s hs e he
    cases s with
    | nil =>
      rw [encodeURIComponent_nil] at he
      cases he
      exact decodes_nil
    | cons c rest =>
      have hrest : rest.length ≤ n := by simpa using hs
      rw [encodeURIComponent_cons] at he
      by_cases hu : isUnreserved c = true
      · rw [if_pos hu] at he
        cases hr : encodeURIComponent m rest with
        | error x => rw [hr] at he; cases he
        | ok r =>
          rw [hr] at he
          cases he
          exact decodes_unreserved c hu r rest (ih rest hrest r hr)
      · rw [if_neg hu] at he
        by_cases hl : isLeadSurrogate c = true
        · rw [if_pos hl] at he
          cases rest with
          | nil => cases he
          | cons d rest2 =>
            have hrest2 : rest2.length ≤ n := by
              simp only [List.length_cons] at hrest
              omega
            by_cases ht : isTrailSurrogate d = true
            · simp only [ht, if_true] at he
              cases hr : encodeURIComponent m rest2 with
              | error x => rw [hr] at he; cases he
              | ok r =>
                rw [hr] at he
                have hee := Except.ok.inj he
                subst hee
                exact decodes_pair c d hl ht r rest2 (ih rest2 hrest2 r hr)
            · simp only [ht, if_false] at he
              cases he
        · rw [if_neg hl] at he
          by_cases ht : isTrailSurrogate c = true
          · rw [if_pos ht] at he
            cases he
          · rw [if_neg ht] at he
            cases hr : encodeURIComponent m rest with
            | error x => rw [hr] at he; cases he
            | ok r =>
              rw [hr] at he
              cases he
              exact decodes_escape c (by simpa using hl) (by simpa using ht) r rest
                (ih rest hrest r hr)

theorem encodeURIComponent_wellFormed (m : JSString) :
    ∀ (n : Nat) (s : JSString), s.length ≤ n →
      (isWellFormed s = true → ∃ e, encodeURIComponent m s = .ok e) ∧
      (isWellFormed s = false → encodeURIComponent m s = .error ⟨m⟩) := by
  intro n
  induction n with
  | zero =>
    intro s hs
    have hnil : s = [] := List.length_eq_zero.mp (Nat.le_zero.mp hs)
    subst hnil
    exact ⟨fun _ => ⟨[], rfl⟩, fun h => by cases h⟩
  | succ n ih =>
    intro s hs
    cases s with
    | nil => exact ⟨fun _ => ⟨[], rfl⟩, fun h => by cases h⟩
    | cons c rest =>
      have hrest : rest.length ≤ n := by simpa using hs
      rw [encodeURIComponent_cons, isWellFormed_cons]
      by_cases hu : isUnreserved c = true
      · have ha := unreserved_ascii c hu
        have hl : isLeadSurrogate c = false := by
          simp only [isLeadSurrogate, Bool.and_eq_false_imp, decide_eq_true_eq,
            decide_eq_false_iff_not]
          omega
        have ht : isTrailSurrogate c = false := by
          simp only [isTrailSurrogate, Bool.and_eq_false_imp, decide_eq_true_eq,
            decide_eq_false_iff_not]
          omega
        simp only [hu, hl, ht, if_true, if_false, Bool.false_eq_true]
        constructor
        · intro hw
          obtain ⟨r, hr⟩ := (ih rest hrest).1 hw
          exact ⟨c :: r, by rw [hr]⟩
        · intro hw
          rw [(ih rest hrest).2 hw]
      · rw [if_neg hu]
        by_cases hl : isLeadSurrogate c = true
        · rw [if_pos hl, if_pos hl]
          cases rest with
          | nil => exact ⟨fun h => (by cases h), fun _ => rfl⟩
          | cons d rest2 =>
            have hrest2 : rest2.length ≤ n := by
              simp only [List.length_cons] at hrest
              omega
            by_cases ht : isTrailSurrogate d = true
            · simp only [ht, if_true, Bool.true_and]
              constructor
              · intro hw
                obtain ⟨r, hr⟩ := (ih rest2 hrest2).1 hw
                exact ⟨_, by rw [hr]⟩
              · intro hw
                rw [(ih rest2 hrest2).2 hw]
            · have ht2 : isTrailSurrogate d = false := by simpa using ht
              simp only [ht2, Bool.false_and, Bool.false_eq_true, if_false]
              exact ⟨fun h => (by cases h), fun _ => trivial⟩
        · rw [if_neg hl, if_neg hl]
          by_cases ht : isTrailSurrogate c = true
          · rw [if_pos ht, if_pos ht]
            exact ⟨fun h => (by cases h), fun _ => rfl⟩
          · rw [if_neg ht, if_neg ht]
            constructor
            · intro hw
              obtain ⟨r, hr⟩ := (ih rest hrest).1 hw
              exact ⟨_, by rw [hr]⟩
            · intro hw
              rw [(ih rest hrest).2 hw]

theorem requests_append (a b : List Effect) : requests (a ++ b) = requests a ++ requests b := by
  induction a with
  | nil => rfl
  | cons e rest ih => cases e <;> simp [requests, ih]

/-- C2 (as stated, refuted): a non-empty trimmed input does not always lead to
a request.  For the input made of the single unpaired surrogate `D800`,
`encodeURIComponent` throws, and the call issues no request at all. -/
theorem getOrder_lone_surrogate_no_request :
    ¬ ∀ w : World, trim w.orderUid ≠ [] →
        ∃ url, requests (getOrder testHost w).world.log = requests w.log ++ [url] := by
  intro h
  obtain ⟨url, hu⟩ := h (freshPage [unit 0xD800]) (by decide)
  have hlog : requests (getOrder testHost (freshPage [unit 0xD800])).world.log = [] := rfl
  rw [hlog] at hu
  simp [freshPage, requests] at hu

theorem settle_eq_write (H : Host Num) (outcome : FetchOutcome Num) (w : World) :
    ∃ html, settle H outcome w = setInnerHTML html w := by
  cases outcome with
  | rejected e => exact ⟨_, rfl⟩
  | response status json =>
    simp only [settle]
    cases onResponse status json with
    | error e => exact ⟨_, rfl⟩
    | ok data =>
      simp only [displayOrder]
      cases orderHTML H data with
      | error e => exact ⟨_, rfl⟩
      | ok html => exact ⟨_, rfl⟩

theorem settle_requests (H : Host Num) (outcome : FetchOutcome Num) (w : World) :
    requests (settle H outcome w).log = requests w.log := by
  obtain ⟨html, h⟩ := settle_eq_write H outcome w
  rw [h]
  simp [setInnerHTML, requests_append, requests]

/-- C2 (amended): for a raw input whose trimmed form is non-empty and has no
unpaired surrogate, `getOrder` returns normally having issued exactly one
request, to 'http://localhost:8080/order?uid=' followed by the value of
`encodeURIComponent` on the trimmed input; the promise chain adds no request,
however the request ends; and percent-decoding that query parameter gives
back exactly the trimmed input. -/
theorem getOrder_request (H : Host Num) (w : World) (h : trim w.orderUid ≠ [])
    (hw : isWellFormed (trim w.orderUid) = true) :
    ∃ encoded, encodeURIComponent H.uriError (trim w.orderUid) = .ok encoded ∧
      (getOrder H w).thrown = none ∧
      requests (getOrder H w).world.log
        = requests w.log ++ [lit "http://localhost:8080/order?uid=" ++ encoded] ∧
      (∀ outcome, requests (settle H outcome (getOrder H w).world).log
        = requests w.log ++ [lit "http://localhost:8080/order?uid=" ++ encoded]) ∧
      percentDecode encoded = some (trim w.orderUid) := by
  obtain ⟨encoded, he⟩ := (encodeURIComponent_wellFormed H.uriError _ _ (Nat.le_refl _)).1 hw
  have hreq : requests (getOrder H w).world.log
      = requests w.log ++ [lit "http://localhost:8080/order?uid=" ++ encoded] := by
    simp [getOrder, h, he, fetch, showLoading, setInnerHTML, requests_append, requests]
  refine ⟨encoded, he, ?_, hreq, ?_, ?_⟩
  · simp [getOrder, h, he]
  · intro outcome
    rw [settle_requests, hreq]
  · exact percentDecode_of_decodes _ _
      (encodeURIComponent_decodes H.uriError _ _ (Nat.le_refl _) encoded he)

theorem getOrder_request_witness :
    trim (freshPage (lit "  a b/é ")).orderUid ≠ [] ∧
    isWellFormed (trim (freshPage (lit "  a b/é ")).orderUid) = true ∧
    ∃ encoded,
      encodeURIComponent testHost.uriError (trim (freshPage (lit "  a b/é ")).orderUid)
        = .ok encoded ∧
      (getOrder testHost (freshPage (lit "  a b/é "))).thrown = none ∧
      requests (getOrder testHost (freshPage (lit "  a b/é "))).world.log
        = requests (freshPage (lit "  a b/é ")).log
          ++ [lit "http://localhost:8080/order?uid=" ++ encoded] ∧
      (∀ outcome,
        requests (settle testHost outcome
            (getOrder testHost (freshPage (lit "  a b/é "))).world).log
          = requests (freshPage (lit "  a b/é ")).log
            ++ [lit "http://localhost:8080/order?uid=" ++ encoded]) ∧
      percentDecode encoded = some (trim (freshPage (lit "  a b/é ")).orderUid) :=
  ⟨by decide, by decide,
   getOrder_request testHost (freshPage (lit "  a b/é ")) (by decide) (by decide)⟩

/-- C6 (as stated, refuted): the effects of a call with a non-empty trimmed
input are not always the loading write followed by a request.  For the input
made of the single unpaired surrogate `DC00` they are the loading write
alone. -/
theorem getOrder_lone_surrogate_effects :
    ¬ ∀ w : World, trim w.orderUid ≠ [] →
        ∃ url, (getOrder testHost w).world.log
          = w.log ++ [Effect.setInnerHTML loadingHTML, Effect.fetch url] := by
  intro h
  obtain ⟨url, hu⟩ := h (freshPage [unit 0xDC00]) (by decide)
  have hlog : (getOrder testHost (freshPage [unit 0xDC00])).world.log
      = [Effect.setInnerHTML loadingHTML] := rfl
  rw [hlog] at hu
  simp [freshPage] at hu

/-- C6 (amended): for a raw input whose trimmed form is non-empty, the first
effect of the call is the write of the loading indicator, so no request
precedes it; and when the trimmed form has no unpaired surrogate, the effects
of the call are exactly that write followed by the single request. -/
theorem getOrder_loading_first (H : Host Num) (w : World) (h : trim w.orderUid ≠ []) :
    ∃ rest, (getOrder H w).world.log = w.log ++ Effect.setInnerHTML loadingHTML :: rest ∧
      ((∃ encoded, encodeURIComponent H.uriError (trim w.orderUid) = .ok encoded ∧
          rest = [Effect.fetch (lit "http://localhost:8080/order?uid=" ++ encoded)]) ∨
        isWellFormed (trim w.orderUid) = false) := by
  cases hw : isWellFormed (trim w.orderUid) with
  | false =>
    have he := (encodeURIComponent_wellFormed H.uriError _ _ (Nat.le_refl _)).2 hw
    exact ⟨[], by simp [getOrder, h, he, showLoading, setInnerHTML], Or.inr rfl⟩
  | true =>
    obtain ⟨encoded, he⟩ := (encodeURIComponent_wellFormed H.uriError _ _ (Nat.le_refl _)).1 hw
    exact ⟨[Effect.fetch (lit "http://localhost:8080/order?uid=" ++ encoded)],
      by simp [getOrder, h, he, fetch, showLoading, setInnerHTML],
      Or.inl ⟨encoded, he, rfl⟩⟩

theorem getOrder_loading_first_witness :
    trim (freshPage (lit " b563feb7b2b84b6test ")).orderUid ≠ [] ∧
    ∃ rest, (getOrder testHost (freshPage (lit " b563feb7b2b84b6test "))).world.log
        = (freshPage (lit " b563feb7b2b84b6test ")).log
          ++ Effect.setInnerHTML loadingHTML :: rest ∧
      ((∃ encoded,
          encodeURIComponent testHost.uriError
              (trim (freshPage (lit " b563feb7b2b84b6test ")).orderUid) = .ok encoded ∧
          rest = [Effect.fetch (lit "http://localhost:8080/order?uid=" ++ encoded)]) ∨
        isWellFormed (trim (freshPage (lit " b563feb7b2b84b6test ")).orderUid) = false) :=
  ⟨by decide, getOrder_loading_first testHost (freshPage (lit " b563feb7b2b84b6test ")) (by decide)⟩

end OrderViewer
